import Mathlib

/-!
Verification of the `go-debug-skill` repository: a CLI (`delve-helper`) that
drives a headless Delve debugging session over RPC and incrementally builds a
markdown debug report that is later assembled into a LaTeX/PDF artifact.

The Go sources are shallowly embedded: pure fragments become Lean functions,
process/file-system effects are made explicit (environments passed as records,
file contents as `String`, external RPC results as `Except String` values).
Strings are Go UTF-8 strings modelled by Lean `String`; `strings.Contains`,
`strings.Split`, `strings.Join`, `strings.TrimSpace` are modelled by the
corresponding operations on `String`/`List Char` defined below.
-/

namespace GoDebug

/-- Model of Go `strings.Contains` at the `List Char` level: `pat` occurs as a
contiguous substring of `s` (an empty `pat` always occurs). -/
def listContainsSub (pat : List Char) : List Char → Bool
  | [] => pat.isEmpty
  | c :: rest => pat.isPrefixOf (c :: rest) || listContainsSub pat rest

/-- Model of Go `strings.Contains s pat`. -/
def strContains (s pat : String) : Bool :=
  listContainsSub pat.data s.data

/-- Model of Go `strings.HasPrefix s pre`. -/
def strStartsWith (s pre : String) : Bool := pre.data.isPrefixOf s.data

/-- Model of Go `strings.HasSuffix s suf`. -/
def strEndsWith (s suf : String) : Bool := suf.data.isSuffixOf s.data

/-- Model of Go `strings.ToLower` (character-wise lowering; the names this
program lowers are ASCII). -/
def strToLower (s : String) : String := String.mk (s.data.map Char.toLower)

/-- Drop leading whitespace characters. -/
def trimLeftL : List Char → List Char
  | [] => []
  | c :: rest => if c.isWhitespace then trimLeftL rest else c :: rest

/-- Model of Go `strings.TrimSpace`. -/
def strTrim (s : String) : String :=
  String.mk (trimLeftL (trimLeftL s.data.reverse).reverse)

/-- Model of Go `strings.Split` on a non-empty separator, at the `List Char`
level, with explicit fuel (structural recursion so that concrete instances
evaluate); `fuel ≥ length` makes it exact. -/
def splitOnGo (sep : List Char) : Nat → List Char → List (List Char)
  | _, [] => [[]]
  | 0, s => [s]
  | Nat.succ fuel, c :: rest =>
    if sep.isPrefixOf (c :: rest) then
      [] :: splitOnGo sep fuel ((c :: rest).drop sep.length)
    else
      match splitOnGo sep fuel rest with
      | [] => [[c]]
      | l :: ls => (c :: l) :: ls

/-- Model of Go `strings.Split s sep` for the non-empty separators this
program uses. -/
def strSplitOn (s sep : String) : List String :=
  if sep.data = [] then [s]
  else (splitOnGo sep.data (s.data.length + 1) s.data).map String.mk

/-- Byte/code-point lexicographic `≤` on character lists (the order
`sort.Strings` sorts by; on UTF-8 byte order and code-point order agree). -/
def lexLe : List Char → List Char → Bool
  | [], _ => true
  | _ :: _, [] => false
  | a :: as, b :: bs => if a = b then lexLe as bs else decide (a < b)

/-- The string order of Go `sort.Strings`, as a proposition. -/
def goLe (a b : String) : Prop := lexLe a.data b.data = true

instance : DecidableRel goLe := fun a b => by unfold goLe; infer_instance

/-- Model of Go `sort.Strings` (the sorted order is all that matters; on
strings any correct sort agrees element-wise). -/
def sortStrings (l : List String) : List String := List.insertionSort goLe l

/-- Concatenation of a list of strings (cons-shaped so that equations about
successive appends are definitional). -/
def concatStrs : List String → String
  | [] => ""
  | s :: rest => s ++ concatStrs rest

/-- Model of Go `filepath.Join a b` for the clean, non-empty path segments this
program joins (no trailing slashes, no `..` cleaning needed). -/
def pJoin (a b : String) : String := a ++ "/" ++ b

/-- Resolve a possibly-relative path against a current working directory, the
way the OS resolves the relative paths this program passes to file
operations. Absolute paths (leading `/`) are kept as is. -/
def resolveIn (cwd p : String) : String :=
  if strStartsWith p "/" then p else pJoin cwd p

/-- Split a character list at newline characters (the line structure of a
file's content; a trailing newline yields a final empty line). -/
def splitNL : List Char → List (List Char)
  | [] => [[]]
  | c :: rest =>
    if c = '\n' then [] :: splitNL rest
    else
      match splitNL rest with
      | [] => [[c]]
      | l :: ls => (c :: l) :: ls

end GoDebug

namespace Pipeline

/-! Embedding of `examples/failing_test` (`pipeline.go` and its data): the
buggy windowing function the end-to-end debugging scenario investigates. -/

/-- The 16-element filtered dataset (`filtered16` in `pipeline_test.go`,
equal to `Filter(sensors, 10, 85)`). -/
def filtered16 : List Int :=
  [42, 63, 28, 71, 39, 14, 55, 33, 77, 48, 60, 25, 69, 36, 52, 18]

/-- The raw 20-reading sensor dataset (`sensors` in `main.go`). -/
def sensors : List Int :=
  [42, 3, 63, 28, 71, 39, 95, 14, 55, 33, 77, 48, 7, 60, 25, 91, 69, 36, 52, 18]

/-- `Filter` from `pipeline.go`: keeps readings inside `[lo, hi]`. -/
def filterReadings (data : List Int) (lo hi : Int) : List Int :=
  data.filter (fun v => decide (lo ≤ v) && decide (v ≤ hi))

/-- The value of `end` computed by the loop body of `Window` before the clamp
guard runs: `end := start + size`. -/
def windowEndPre (start size : Nat) : Nat := start + size

/-- The value of `end` after the (buggy) clamp guard of `Window`:
`if end > len(data)-1 { end = len(data) - 1 }`. -/
def windowEnd (dataLen start size : Nat) : Nat :=
  let e := start + size
  if e > dataLen - 1 then dataLen - 1 else e

/-- The clamp guard with the threshold the spec's fix describes: comparing
against `len(data)` instead of `len(data)-1`. -/
def windowEndFixed (dataLen start size : Nat) : Nat :=
  let e := start + size
  if e > dataLen then dataLen else e

/-- The loop of `Window`, with explicit fuel (the loop runs at most
`len(data)` iterations for `step ≥ 1`, so `len(data) + 1` fuel is exact).
`data[start:end]` is `(data.take e).drop start`. -/
def windowAux (data : List Int) (size step n : Nat) : Nat → Nat → List (List Int)
  | _, 0 => []
  | start, Nat.succ fuel =>
    if start < n then
      ((data.take (windowEnd n start size)).drop start) ::
        windowAux data size step n (start + step) fuel
    else []

/-- `Window` from `pipeline.go`: slices `data` into overlapping windows of the
given size and step (with the off-by-one clamp guard). -/
def Window (data : List Int) (size step : Nat) : List (List Int) :=
  windowAux data size step data.length 0 (data.length + 1)

end Pipeline

namespace DelveHelper

open GoDebug

/-! Embedding of `internal/delvehelper` (`run.go`, `commands.go`, the RPC
client, the report-writing commands and the report assembler).  Printed output
is modelled as a `List String` of lines; a command handler returns
`Except String (List String)`: `.error e` models a non-nil Go `error` return
(non-zero exit code), `.ok lines` models success (exit code 0). -/

/-- `api.Location`: a source location as reported by Delve (also used for the
`CurrentLoc`/`UserCurrentLoc` fields of a goroutine). -/
structure Location where
  pc : Nat
  pcs : List Nat
  file : String
  line : Int
  functionName : Option String
deriving DecidableEq, Repr

/-- `api.Goroutine` (the fields this program reads). -/
structure Goroutine where
  id : Int
  userCurrentLoc : Location
  currentLoc : Location
deriving DecidableEq, Repr

/-- `api.Breakpoint` (the fields this program reads). -/
structure Breakpoint where
  id : Int
  file : String
  line : Int
  addr : Nat
  disabled : Bool
deriving DecidableEq, Repr

/-- `api.Thread` (the fields `printState` reads). -/
structure Thread where
  id : Int
  breakpoint : Option Breakpoint
  file : String
  line : Int
deriving DecidableEq, Repr

/-- `api.DebuggerState` (the fields this program reads); `err` is the `Err`
field delivered on the `Continue` channel. -/
structure DebuggerState where
  exited : Bool
  exitStatus : Int
  running : Bool
  selectedGoroutine : Option Goroutine
  threads : List Thread
  err : Option String
deriving DecidableEq, Repr

/-- The location `printState` (and `summarizeState`) picks for a goroutine:
`UserCurrentLoc`, falling back to `CurrentLoc` when its file is empty. -/
def locOfGoroutine (g : Goroutine) : Location :=
  if g.userCurrentLoc.file = "" then g.currentLoc else g.userCurrentLoc

/-- Function-name rendering: `loc.Function.Name()` or `"???"`. -/
def funcNameStr (l : Location) : String := l.functionName.getD "???"

/-- The `Process exited with status %d` line. -/
def exitedLine (status : Int) : String :=
  "Process exited with status " ++ toString status

/-- The `goroutine %d at %s:%d (%s)` line printed by `printState`. -/
def goroutineStateLine (g : Goroutine) : String :=
  let loc := locOfGoroutine g
  "goroutine " ++ toString g.id ++ " at " ++ loc.file ++ ":" ++
    toString loc.line ++ " (" ++ funcNameStr loc ++ ")"

/-- The `  thread %d at breakpoint %d: %s:%d` line printed by `printState`
for a thread parked at a breakpoint. -/
def threadBreakpointLine (t : Thread) : Option String :=
  match t.breakpoint with
  | some bp =>
    some ("  thread " ++ toString t.id ++ " at breakpoint " ++ toString bp.id ++
      ": " ++ t.file ++ ":" ++ toString t.line)
  | none => none

/-- The lines `printState` prints for a non-exited, non-running state before
its `printed` fallback: the selected goroutine's location (if any) followed by
one line per thread parked at a breakpoint. -/
def stoppedLines (s : DebuggerState) : List String :=
  (match s.selectedGoroutine with
   | some g => [goroutineStateLine g]
   | none => []) ++ s.threads.filterMap threadBreakpointLine

/-- `printState` from `commands.go`: the state-summary rendering used by
`state` and after every stepping command.  Returns the printed lines (the Go
function always returns a nil error); `printed == false` in the Go code is
exactly `(stoppedLines s).isEmpty`. -/
def printState (s : DebuggerState) : List String :=
  if s.exited then [exitedLine s.exitStatus]
  else if s.running then ["Process is running."]
  else if (stoppedLines s).isEmpty then ["stopped"]
  else stoppedLines s

/-- The state-summary rule exactly as the claim words it (an exclusive
priority chain): exited → exit status; running → "running"; else if a thread
is parked at a breakpoint → that breakpoint; else if a goroutine is selected →
its location; else the generic "stopped". -/
def printStateClaim (s : DebuggerState) : List String :=
  if s.exited then [exitedLine s.exitStatus]
  else if s.running then ["Process is running."]
  else
    match s.threads.find? (fun t => t.breakpoint.isSome) with
    | some t => (threadBreakpointLine t).toList
    | none =>
      match s.selectedGoroutine with
      | some g => [goroutineStateLine g]
      | none => ["stopped"]

/-- `api.Variable` (the fields this program renders). -/
structure Variable where
  name : String
  value : String
deriving DecidableEq, Repr

/-- `api.Stackframe` (the fields this program renders). -/
structure Frame where
  functionName : Option String
  file : String
  line : Int
deriving DecidableEq, Repr

/-- `api.EvalScope`. -/
structure EvalScope where
  goroutineID : Int
  frame : Int
deriving DecidableEq, Repr

/-- `scopeFromState` from the RPC client file: the evaluation scope derived
from the selected goroutine (or `-1` when none is selected). -/
def scopeFromState (st : DebuggerState) : EvalScope :=
  match st.selectedGoroutine with
  | some g => { goroutineID := g.id, frame := 0 }
  | none => { goroutineID := -1, frame := 0 }

/-- The request fields `cmdBreak` fills in on the `api.Breakpoint` struct it
sends to `CreateBreakpoint`. -/
structure BreakpointRequest where
  addr : Nat
  file : String
  line : Int
  cond : String
deriving DecidableEq, Repr

/-- The external Delve engine as observed over RPC by one CLI invocation:
each field holds the engine's response to the corresponding RPC call
(`.error e` models a non-nil error result).  Constant request parameters the
Go code always passes (the `api.LoadConfig`, the stack depth 20, the
goroutine page size 100, the substitute-path rules) are omitted, as is the
unused second return value of `FindLocation`. -/
structure Engine where
  getState : Except String DebuggerState
  findLocation : EvalScope → String → Except String (List Location)
  createBreakpoint : BreakpointRequest → Except String Breakpoint
  listBreakpoints : Except String (List Breakpoint)
  clearBreakpoint : Int → Except String Breakpoint
  continueState : DebuggerState
  nextResult : Except String DebuggerState
  stepResult : Except String DebuggerState
  stepOutResult : Except String DebuggerState
  evalVariable : EvalScope → String → Except String (Option Variable)
  listLocals : EvalScope → Except String (List Variable)
  listArgs : EvalScope → Except String (List Variable)
  stacktrace : Int → Except String (List Frame)
  listGoroutines : Except String (List Goroutine)

/-- The error text Delve produces when the tracee has exited; `run.go` and
`isExitError` both string-match on it. -/
def exitErrPattern : String := "has exited with status"

/-- `isExitError` from `commands.go`: whether `err` is Delve's
`Process N has exited with status M` message. -/
def isExitError : Option String → Bool
  | none => false
  | some msg => strContains msg exitErrPattern

/-- `strings.Index(locspec, " if ")` based condition split in `cmdBreak`:
on the first occurrence of `" if "`, the prefix (trimmed) is the location
spec and the suffix (trimmed) is the condition; with no occurrence the
spec is returned unchanged with an empty condition. -/
def splitCond (locspec : String) : String × String :=
  match strSplitOn locspec " if " with
  | [] => (locspec, "")
  | [_] => (locspec, "")
  | p :: rest => (strTrim p, strTrim (String.intercalate " if " rest))

/-- The address `cmdBreak` uses for one resolved location: `loc.PC`, falling
back to `loc.PCs[0]`, skipping the location (`none`) when that is still 0. -/
def resolveAddr (l : Location) : Option Nat :=
  let a := if l.pc = 0 then l.pcs.headD 0 else l.pc
  if a = 0 then none else some a

/-- Go `%#x` rendering of an address. -/
def hexOfNat (n : Nat) : String := "0x" ++ String.mk (Nat.toDigits 16 n)

/-- The `breakpoint %d at %s:%d (addr %#x)[ if cond]` line `cmdBreak` prints
for each created breakpoint. -/
def breakMsg (bp : Breakpoint) (cond : String) : String :=
  let base := "breakpoint " ++ toString bp.id ++ " at " ++ bp.file ++ ":" ++
    toString bp.line ++ " (addr " ++ hexOfNat bp.addr ++ ")"
  if cond ≠ "" then base ++ " if " ++ cond else base

/-- Go `%q` for the quote-free location specs this program reports. -/
def goQuote (s : String) : String := "\"" ++ s ++ "\""

/-- The creation loop of `cmdBreak` over the resolved locations: skips
locations without a usable address, creates one breakpoint per remaining
location and collects the requests sent and the lines printed.  (On a
`CreateBreakpoint` error the Go code returns that error; lines already
printed before the failure are not modelled.) -/
def breakLoop (eng : Engine) (cond : String) :
    List Location → Except String (List BreakpointRequest × List String)
  | [] => .ok ([], [])
  | l :: rest =>
    match resolveAddr l with
    | none => breakLoop eng cond rest
    | some a =>
      let req : BreakpointRequest := { addr := a, file := l.file, line := l.line, cond := cond }
      match eng.createBreakpoint req with
      | .error e => .error e
      | .ok bp =>
        match breakLoop eng cond rest with
        | .error e => .error e
        | .ok pr => .ok (req :: pr.1, breakMsg bp cond :: pr.2)

/-- `cmdBreak` from `commands.go`: splits the condition off the joined
argument string, resolves the remaining spec via the engine, fails when no
location resolves, and otherwise creates one breakpoint per usable resolved
address.  Returns the requests sent together with the printed lines. -/
def cmdBreak (eng : Engine) (st : DebuggerState) (args : List String) :
    Except String (List BreakpointRequest × List String) :=
  if args.isEmpty then .error "usage: break <locspec> [if <condition>]"
  else
    let lc := splitCond (String.intercalate " " args)
    match eng.findLocation (scopeFromState st) lc.1 with
    | .error e => .error e
    | .ok locs =>
      if locs.isEmpty then .error ("no location found for " ++ goQuote lc.1)
      else breakLoop eng lc.2 locs

/-- The requests `cmdBreak` ends up sending for a resolved location list:
one per location with a usable address, carrying the split-off condition. -/
def breakReqs (cond : String) (locs : List Location) : List BreakpointRequest :=
  locs.filterMap (fun l => (resolveAddr l).map
    (fun a => { addr := a, file := l.file, line := l.line, cond := cond }))

/-- The `%d: %s:%d[ (disabled)]` line `cmdBreakpoints` prints. -/
def breakpointLine (bp : Breakpoint) : String :=
  toString bp.id ++ ": " ++ bp.file ++ ":" ++ toString bp.line ++
    (if bp.disabled then " (disabled)" else "")

/-- `cmdBreakpoints` from `commands.go` (skips the unnumbered `ID == 0`
internal breakpoints). -/
def cmdBreakpoints (eng : Engine) : Except String (List String) :=
  match eng.listBreakpoints with
  | .error e => .error e
  | .ok bps => .ok ((bps.filter (fun bp => bp.id != 0)).map breakpointLine)

/-- `cmdClear` from `commands.go`.  The exact text of the `strconv.Atoi`
failure is abstracted; only that it is an error is modelled. -/
def cmdClear (eng : Engine) (args : List String) : Except String (List String) :=
  match args with
  | [] => .error "usage: clear <id>"
  | a :: _ =>
    match a.toInt? with
    | none => .error ("invalid syntax: " ++ a)
    | some id =>
      match eng.clearBreakpoint id with
      | .error e => .error e
      | .ok _ => .ok ["cleared breakpoint " ++ toString id]

/-- `cmdContinue` from `commands.go`: the state received from the `Continue`
channel; an error carrying the exit pattern is printed and treated as
success, any other error is returned. -/
def cmdContinue (eng : Engine) : Except String (List String) :=
  let state := eng.continueState
  match state.err with
  | some e => if isExitError (some e) then .ok [e] else .error e
  | none =>
    if state.exited then .ok [exitedLine state.exitStatus]
    else .ok (printState state)

/-- The three stepping RPCs `cmdStep` can issue. -/
inductive StepKind
  | next
  | step
  | stepOut
deriving DecidableEq, Repr

/-- The engine call `cmdStep` makes for each stepping command. -/
def stepCall (eng : Engine) : StepKind → Except String DebuggerState
  | .next => eng.nextResult
  | .step => eng.stepResult
  | .stepOut => eng.stepOutResult

/-- `cmdStep` from `commands.go`: same exit-vs-error handling as
`cmdContinue`, then the state summary. -/
def cmdStep (eng : Engine) (k : StepKind) : Except String (List String) :=
  match stepCall eng k with
  | .error e => if isExitError (some e) then .ok [e] else .error e
  | .ok st =>
    if st.exited then .ok [exitedLine st.exitStatus]
    else .ok (printState st)

/-- The `name = value` line used by `print`, `locals` and `args`. -/
def varLine (v : Variable) : String := v.name ++ " = " ++ v.value

/-- `cmdPrint` from `commands.go`. -/
def cmdPrint (eng : Engine) (st : DebuggerState) (args : List String) :
    Except String (List String) :=
  if args.isEmpty then .error "usage: print <expr>"
  else
    match eng.evalVariable (scopeFromState st) (String.intercalate " " args) with
    | .error e => .error e
    | .ok none => .error "expression evaluated to nothing"
    | .ok (some v) => .ok [varLine v]

/-- `cmdLocals` from `commands.go`. -/
def cmdLocals (eng : Engine) (st : DebuggerState) : Except String (List String) :=
  match eng.listLocals (scopeFromState st) with
  | .error e => .error e
  | .ok vars => .ok (vars.map varLine)

/-- `cmdArgs` from `commands.go`. -/
def cmdArgs (eng : Engine) (st : DebuggerState) : Except String (List String) :=
  match eng.listArgs (scopeFromState st) with
  | .error e => .error e
  | .ok vars => .ok (vars.map varLine)

/-- The `#%d %s %s:%d` stack frame line. -/
def frameLine (i : Nat) (f : Frame) : String :=
  "#" ++ toString i ++ " " ++ (f.functionName.getD "???") ++ " " ++ f.file ++
    ":" ++ toString f.line

/-- `cmdStack` from `commands.go`. -/
def cmdStack (eng : Engine) (st : DebuggerState) : Except String (List String) :=
  let gid : Int := match st.selectedGoroutine with
    | some g => g.id
    | none => -1
  match eng.stacktrace gid with
  | .error e => .error e
  | .ok frames => .ok (frames.enum.map (fun p => frameLine p.1 p.2))

/-- The `goroutine %d [%s:%d %s]` goroutine listing line. -/
def goroutineListLine (g : Goroutine) : String :=
  let loc := locOfGoroutine g
  "goroutine " ++ toString g.id ++ " [" ++ loc.file ++ ":" ++
    toString loc.line ++ " " ++ funcNameStr loc ++ "]"

/-- `cmdGoroutines` from `commands.go`. -/
def cmdGoroutines (eng : Engine) : Except String (List String) :=
  match eng.listGoroutines with
  | .error e => .error e
  | .ok gs => .ok (gs.map goroutineListLine)

/-- One session command of the dispatcher in `Run` (the commands that reach
the initial `GetState` query; lifecycle and report commands are dispatched
before a client is created and never query the engine). -/
inductive Cmd
  | stateCmd
  | breakCmd (args : List String)
  | breakpointsCmd
  | clearCmd (args : List String)
  | continueCmd
  | stepKindCmd (k : StepKind)
  | printCmd (args : List String)
  | localsCmd
  | argsCmd
  | stackCmd
  | goroutinesCmd

/-- The `switch cmd` dispatch of `Run` over the session commands. -/
def dispatch (eng : Engine) (st : DebuggerState) : Cmd → Except String (List String)
  | .stateCmd => .ok (printState st)
  | .breakCmd args => (cmdBreak eng st args).map Prod.snd
  | .breakpointsCmd => cmdBreakpoints eng
  | .clearCmd args => cmdClear eng args
  | .continueCmd => cmdContinue eng
  | .stepKindCmd k => cmdStep eng k
  | .printCmd args => cmdPrint eng st args
  | .localsCmd => cmdLocals eng st
  | .argsCmd => cmdArgs eng st
  | .stackCmd => cmdStack eng st
  | .goroutinesCmd => cmdGoroutines eng

/-- The session-command path of `Run` from `run.go`: query the state first;
if the query errors with the recognized exit pattern, print it and succeed;
on any other error fail; otherwise dispatch the command. -/
def runSession (eng : Engine) (cmd : Cmd) : Except String (List String) :=
  match eng.getState with
  | .error m =>
    if strContains m exitErrPattern then .ok [m] else .error m
  | .ok st => dispatch eng st cmd

/-- A concrete stopped state with both a selected goroutine and a thread
parked at a breakpoint (the situation after a `continue` hits a breakpoint). -/
def sampleBothState : DebuggerState :=
  { exited := false
    exitStatus := 0
    running := false
    selectedGoroutine := some
      { id := 1
        userCurrentLoc := { pc := 4096, pcs := [], file := "main.go", line := 10, functionName := some "main.main" }
        currentLoc := { pc := 4096, pcs := [], file := "main.go", line := 10, functionName := some "main.main" } }
    threads := [{ id := 7, breakpoint := some { id := 2, file := "main.go", line := 10, addr := 4096, disabled := false }, file := "main.go", line := 10 }]
    err := none }

/-- A concrete stopped state with no selected goroutine and no parked thread. -/
def sampleBareState : DebuggerState :=
  { exited := false
    exitStatus := 0
    running := false
    selectedGoroutine := none
    threads := []
    err := none }

/-- A concrete exit-error message in Delve's format. -/
def sampleExitMsg : String := "Process 123 has exited with status 0"

/-- A concrete resolved location. -/
def sampleLoc : Location :=
  { pc := 4096, pcs := [], file := "main.go", line := 25, functionName := some "main.Window" }

/-- The breakpoint a concrete engine returns for a creation request. -/
def sampleBreakF : BreakpointRequest → Breakpoint := fun req =>
  { id := 1, file := req.file, line := req.line, addr := req.addr, disabled := false }

/-- A concrete engine whose tracee has already exited: the initial state
query fails with the exit-error message. -/
def sampleEngine : Engine :=
  { getState := .error sampleExitMsg
    findLocation := fun _ _ => .ok []
    createBreakpoint := fun req => .ok (sampleBreakF req)
    listBreakpoints := .ok []
    clearBreakpoint := fun _ => .ok (sampleBreakF { addr := 4096, file := "main.go", line := 25, cond := "" })
    continueState := sampleBareState
    nextResult := .ok sampleBareState
    stepResult := .ok sampleBareState
    stepOutResult := .ok sampleBareState
    evalVariable := fun _ _ => .ok none
    listLocals := fun _ => .ok []
    listArgs := fun _ => .ok []
    stacktrace := fun _ => .ok []
    listGoroutines := .ok [] }

/-- A concrete live engine that resolves `main.go:25` to one location and
echoes creation requests back as breakpoint 1. -/
def sampleLiveEngine : Engine :=
  { getState := .ok sampleBareState
    findLocation := fun _ spec => if spec = "main.go:25" then .ok [sampleLoc] else .ok []
    createBreakpoint := fun req => .ok (sampleBreakF req)
    listBreakpoints := .ok []
    clearBreakpoint := fun _ => .ok (sampleBreakF { addr := 4096, file := "main.go", line := 25, cond := "" })
    continueState := sampleBareState
    nextResult := .ok sampleBareState
    stepResult := .ok sampleBareState
    stepOutResult := .ok sampleBareState
    evalVariable := fun _ _ => .ok none
    listLocals := fun _ => .ok []
    listArgs := fun _ => .ok []
    stacktrace := fun _ => .ok []
    listGoroutines := .ok [] }

/-! Embedding of the report fragment store (`report.go`): the trace-row
append command.  The fragment file's content is threaded explicitly as a
`String` (`""` models a missing file, matching `fileContains`, which treats a
read error as empty content); `appendToFile` is content concatenation. -/

/-- The trace-table section title `cmdReportTraceRow` guards on. -/
def traceHeaderMark : String := "## Debugging Trace"

/-- The table column-header row of the trace table. -/
def traceColHeader : String := "| # | Action | Location | Reasoning |"

/-- The table separator row of the trace table. -/
def traceColSep : String := "| - | ------ | -------- | --------- |"

/-- The full header block `cmdReportTraceRow` writes on first touch. -/
def traceTableHeader : String :=
  traceHeaderMark ++ "\n\n" ++ traceColHeader ++ "\n" ++ traceColSep ++ "\n"

/-- One trace row invocation's fields (`-n`, `-action`, `-loc`, `-reason`). -/
structure TraceRow where
  n : Int
  action : String
  loc : String
  reason : String
deriving DecidableEq, Repr

/-- The `| %d | %s | `%s` | %s |` table row (without the newline). -/
def renderTraceRowBody (r : TraceRow) : String :=
  "| " ++ toString r.n ++ " | " ++ r.action ++ " | `" ++ r.loc ++ "` | " ++
    r.reason ++ " |"

/-- The row text `cmdReportTraceRow` appends (one line). -/
def renderTraceRow (r : TraceRow) : String := renderTraceRowBody r ++ "\n"

/-- `fileContains` from `report.go` over the file's current content (a read
error yields empty content, hence `false`). -/
def fileContains (content s : String) : Bool := strContains content s

/-- One `report-trace-row` invocation on the trace fragment with content
`content`: prepends the header block exactly when the section title is not
yet present, then appends the rendered row. -/
def traceRowAppend (content : String) (r : TraceRow) : String :=
  if fileContains content traceHeaderMark then content ++ renderTraceRow r
  else content ++ (traceTableHeader ++ renderTraceRow r)

/-- N successive `report-trace-row` invocations. -/
def traceRowsAppend (content : String) (rows : List TraceRow) : String :=
  rows.foldl traceRowAppend content

/-! Embedding of the assembler (`convert.go`): fragment selection and
concatenation in `MDToTex`, the table repair pass `fixMarkdownTables`, and
the compile loop of `TexToPDF`. -/

/-- One directory entry of `os.ReadDir`. -/
structure DirEntry where
  name : String
  isDir : Bool

/-- The fragment-selection filter of `MDToTex`: skip directories, dot-files
and non-`.md` files (case-insensitive suffix), and among `.md` files skip the
`frag_` template fragments and the named checklist file. -/
def selectMdFiles (entries : List DirEntry) : List String :=
  entries.filterMap (fun e =>
    if e.isDir then none
    else if strStartsWith e.name "." then none
    else if strEndsWith (strToLower e.name) ".md" then
      if strStartsWith e.name "frag_" then none
      else if e.name = "99_checklist.md" then none
      else some e.name
    else none)

/-- The fragment-selection/ordering/concatenation portion of `MDToTex`
(`convert.go` lines 139–183): select, fail when nothing survives, sort by
name, concatenate contents with a blank-line separator.  `readFile` supplies
each fragment's content by path (read errors are not modelled; the claim
concerns selection and ordering). -/
def mdToTexBody (dbgDir : String) (entries : List DirEntry)
    (readFile : String → String) : Except String String :=
  let mdFiles := selectMdFiles entries
  if mdFiles.isEmpty then .error ("no .md files found in " ++ dbgDir)
  else
    .ok (String.intercalate "\n\n"
      ((sortStrings mdFiles).map (fun name => readFile (pJoin dbgDir name))))

/-- `isTableRow` in `fixMarkdownTables`: starts with `|` and has another `|`
after the first character. -/
def isTableRowLine (line : String) : Bool :=
  strStartsWith line "|" && strContains (String.mk (line.data.drop 1)) "|"

/-- `isSeparator` in `fixMarkdownTables`: a table row containing `---`. -/
def isSeparatorLine (line : String) : Bool :=
  isTableRowLine line && strContains line "---"

/-- The synthesized separator row: one ` --- |` slot per column of the first
row, where the column count is `strings.Count(line, "|") - 1` clamped to at
least 1. -/
def sepRowFor (line : String) : String :=
  let nc := line.data.count '|' - 1
  let nc := if nc < 1 then 1 else nc
  "|" ++ String.join (List.replicate nc " --- |")

/-- The loop of `fixMarkdownTables` over the split lines, with the `inTable`
state variable (set to `isTableRow || isSeparator` after each line). -/
def fixTablesGo : List String → Bool → List String
  | [], _ => []
  | line :: rest, inTable =>
    let ins :=
      if isTableRowLine line && !inTable then
        match rest with
        | next :: _ =>
          if strStartsWith next "|" && !(strContains next "---") then
            [sepRowFor line]
          else []
        | [] => []
      else []
    line :: (ins ++ fixTablesGo rest (isTableRowLine line || isSeparatorLine line))

/-- `fixMarkdownTables` from `convert.go`. -/
def fixMarkdownTables (md : String) : String :=
  String.intercalate "\n" (fixTablesGo (strSplitOn md "\n") false)

/-- The repair pass as the claim words it: a line needs a synthesized
separator exactly when it is a table row that is the first row of its table
(the previous line, if any, is not a table row) and is immediately followed
by a pipe-prefixed line that is not a separator row. -/
def needsSyntheticSep (prev : Option String) (line : String)
    (next? : Option String) : Bool :=
  isTableRowLine line &&
  (match prev with
   | none => true
   | some p => !(isTableRowLine p)) &&
  (match next? with
   | some next => strStartsWith next "|" && !(strContains next "---")
   | none => false)

/-- The declarative form of the repair pass: insert `sepRowFor line` after
each line satisfying `needsSyntheticSep`, tracking only the previous line. -/
def fixTablesSpec (prev : Option String) : List String → List String
  | [] => []
  | line :: rest =>
    line :: ((if needsSyntheticSep prev line rest.head? then [sepRowFor line] else []) ++
      fixTablesSpec (some line) rest)

/-- The `inTable` state of the repair loop as a function of the previous
line (`false` at the first line). -/
def prevInTable : Option String → Bool
  | none => false
  | some l => isTableRowLine l || isSeparatorLine l

/-- The external world `TexToPDF` interacts with: whether the embedded
templates can be written out, whether `pdflatex` is on the lookup path, and
whether the output artifact exists after the compile runs.  (The exit status
of each `pdflatex` run is discarded by the Go code — `_ = cmd.Run()` — so it
does not appear.) -/
structure PdfWorld where
  templatesOk : Bool
  pdflatexFound : Bool
  artifactExists : Bool

/-- The observable effects of `TexToPDF`. -/
inductive PdfEffect
  | runCompiler
  | statArtifact
deriving DecidableEq, Repr

/-- `TexToPDF` from `convert.go`: ensure templates, require `pdflatex`, run
the compiler twice (a fixed count, regardless of each run's outcome), then
verify the artifact exists, failing with an error naming the expected
path. Returns the effect trace and the result. -/
def texToPDF (w : PdfWorld) (dbgDir : String) : List PdfEffect × Except String Unit :=
  if !w.templatesOk then ([], .error "ensure templates failed")
  else if !w.pdflatexFound then ([], .error "pdflatex is required to compile PDF")
  else
    let effs := [PdfEffect.runCompiler, PdfEffect.runCompiler, PdfEffect.statArtifact]
    if w.artifactExists then (effs, .ok ())
    else (effs, .error ("pdflatex did not produce " ++ pJoin dbgDir "debug_report.pdf"))

/-! Embedding of the session handle store (`getDlvDir` from `run.go`,
`getAddr` from the RPC client file) and of the launcher's handle writes
(`cmdStart` from the start file of `internal/delvehelper`, and `Start` of the
`delve` package). -/

/-- The environment one `getAddr` call observes: the `DLV_ADDR` and `DBG_DIR`
environment variables (`""` models unset, as `os.Getenv` returns) and the
file system's answer to `os.ReadFile`. -/
structure AddrEnv where
  dlvAddr : String
  dbgDir : String
  readFile : String → Except String String

/-- `getDlvDir` from `run.go`: `DBG_DIR/.dlv` when `DBG_DIR` is set, else
`.dlv` (both relative to the current directory). -/
def getDlvDir (dbgDir : String) : String :=
  if dbgDir ≠ "" then pJoin dbgDir ".dlv" else ".dlv"

/-- `getAddrFilePath` from the RPC client file. -/
def getAddrFilePath (dbgDir : String) : String := pJoin (getDlvDir dbgDir) "addr"

/-- The "no session" error message of `getAddr`, naming the handle path
(twice) and wrapping the underlying read error. -/
def noSessionErrMsg (addrFile e : String) : String :=
  "no DLV_ADDR and " ++ addrFile ++ " not found: " ++ e ++
    " (start headless dlv and set DLV_ADDR or write address to " ++ addrFile ++ ")"

/-- `getAddr` from the RPC client file: prefer the `DLV_ADDR` override, else
read the handle file and trim surrounding whitespace, else fail with an error
naming the path that was looked for. -/
def getAddr (env : AddrEnv) : Except String String :=
  if env.dlvAddr ≠ "" then .ok env.dlvAddr
  else
    match env.readFile (getAddrFilePath env.dbgDir) with
    | .error e => .error (noSessionErrMsg (getAddrFilePath env.dbgDir) e)
    | .ok b => .ok (strTrim b)

/-- The inputs that determine where `start` writes the session handle. -/
structure StartCfg where
  origCWD : String
  target : String
  dbgDir : String
  execMode : Bool
  targetHasGoMod : Bool

/-- The launcher's chdir condition (identical in `cmdStart` and in
`delve.Start`): a non-`.` target directory containing its own `go.mod`,
outside exec mode. -/
def startDidChdir (c : StartCfg) : Bool :=
  c.target != "." && !c.execMode && c.targetHasGoMod

/-- The process working directory at handle-write time (the target directory
after the chdir, else the invoker's directory). -/
def startSessionCWD (c : StartCfg) : String :=
  if startDidChdir c then resolveIn c.origCWD c.target else c.origCWD

/-- The absolute paths `cmdStart` (package `delvehelper`) writes the handle
files to, in order: the `getDlvDir()` path — re-rooted at `origCWD` when the
launcher chdired — then, when it chdired and `DBG_DIR` is unset, the
`origCWD/.dlv` pair. -/
def cmdStartHandleWrites (c : StartCfg) : List String :=
  let rel := if c.dbgDir != "" then pJoin c.dbgDir ".dlv" else ".dlv"
  let dlvDir := if startDidChdir c then pJoin c.origCWD rel else rel
  let dlvDirAbs := resolveIn (startSessionCWD c) dlvDir
  let base := [pJoin dlvDirAbs "addr", pJoin dlvDirAbs "pid"]
  if startDidChdir c && c.dbgDir == "" then
    base ++ [pJoin (pJoin c.origCWD ".dlv") "addr", pJoin (pJoin c.origCWD ".dlv") "pid"]
  else base

/-- Modelled from the spec: the `DefaultAddrFile` constant of the `delve`
package is declared in a file not present under `src/`; per the spec the
handle lives at `.dlv/addr` (the hidden handle directory with `addr` and
`pid` files), which also matches `delve.Stop`'s cleanup of `.dlv/`. -/
def DefaultAddrFile : String := ".dlv/addr"

/-- The absolute paths `Start` of the `delve` package writes the handle files
to, in order: `DefaultAddrFile` (and `.dlv/pid`) relative to the current —
post-chdir — directory, then, when it chdired, the same pair under the
invoker's original directory. -/
def startHandleWritesLegacy (c : StartCfg) : List String :=
  let cwd := startSessionCWD c
  let base := [resolveIn cwd DefaultAddrFile, resolveIn cwd ".dlv/pid"]
  if startDidChdir c then
    base ++ [pJoin c.origCWD DefaultAddrFile, pJoin c.origCWD ".dlv/pid"]
  else base

/-- The C4 failing input: invoker at `/proj`, target submodule `/proj/sub`
with its own `go.mod`, `DBG_DIR` unset, not exec mode. -/
def subModuleCfg : StartCfg :=
  { origCWD := "/proj"
    target := "/proj/sub"
    dbgDir := ""
    execMode := false
    targetHasGoMod := true }

/-- A concrete environment with no override and a missing handle file under
`DBG_DIR=.debug`. -/
def missingHandleEnv : AddrEnv :=
  { dlvAddr := ""
    dbgDir := ".debug"
    readFile := fun _ => .error "open: no such file" }

/-- A concrete environment with no override and a stored (newline-terminated)
address. -/
def storedHandleEnv : AddrEnv :=
  { dlvAddr := ""
    dbgDir := ""
    readFile := fun _ => .ok "127.0.0.1:44573\n" }

/-- Two concrete trace rows as two invocations would supply them. -/
def sampleTraceRows : List TraceRow :=
  [{ n := 1, action := "set", loc := "main.go:25", reason := "conditional breakpoint" },
   { n := 2, action := "hit", loc := "main.go:25", reason := "start == 12" }]

/-- A concrete artifact-directory listing: two report fragments (out of
order), a template fragment, the checklist, a dot-directory and a non-`.md`
file. -/
def sampleEntries : List DirEntry :=
  [{ name := "20_evidence.md", isDir := false },
   { name := "00_report.md", isDir := false },
   { name := "frag_evidence.md", isDir := false },
   { name := "99_checklist.md", isDir := false },
   { name := ".dlv", isDir := true },
   { name := "styles.tex", isDir := false }]

end DelveHelper

namespace DelveHelper

/-- For an engine whose `CreateBreakpoint` always succeeds via `f`, the
creation loop of `cmdBreak` succeeds and sends exactly `breakReqs`. -/
theorem breakLoop_ok (eng : Engine) (cond : String) (f : BreakpointRequest → Breakpoint)
    (hf : ∀ req, eng.createBreakpoint req = .ok (f req)) :
    ∀ locs, breakLoop eng cond locs =
      .ok (breakReqs cond locs,
        (breakReqs cond locs).map (fun req => breakMsg (f req) cond)) := by
  intro locs
  induction locs with
  | nil => simp [breakLoop, breakReqs]
  | cons l rest ih =>
    cases hra : resolveAddr l with
    | none => simp [breakLoop, breakReqs, hra, ih]
    | some a => simp [breakLoop, breakReqs, hra, hf, ih]

/-- The requests sent carry exactly the resolved addresses, in order. -/
theorem breakReqs_addrs (cond : String) (locs : List Location) :
    (breakReqs cond locs).map BreakpointRequest.addr = locs.filterMap resolveAddr := by
  induction locs with
  | nil => simp [breakReqs]
  | cons l rest ih =>
    cases hra : resolveAddr l <;> simp [breakReqs, hra] <;>
      simpa [breakReqs] using ih

/-- Every request sent carries the split-off condition. -/
theorem breakReqs_cond (cond : String) (locs : List Location) :
    ∀ req ∈ breakReqs cond locs, req.cond = cond := by
  intro req h
  simp only [breakReqs, List.mem_filterMap] at h
  obtain ⟨l, _, h2⟩ := h
  cases hra : resolveAddr l with
  | none => rw [hra] at h2; simp at h2
  | some a =>
    rw [hra] at h2
    simp only [Option.map_some'] at h2
    obtain ⟨⟩ := h2
    rfl

end DelveHelper

open GoDebug DelveHelper Pipeline in
/-- C3 counterexample: on a stopped state with both a selected goroutine and a
thread parked at a breakpoint, `printState` does not follow the claimed
exclusive priority chain (it reports the goroutine's location first and then
the parked thread, while the claimed chain reports only the breakpoint). -/
theorem c3_priority_chain_counterexample :
    printState sampleBothState ≠ printStateClaim sampleBothState := by
  decide

open GoDebug DelveHelper in
/-- C3 (amended): on every debugger state, `printState` emits non-empty
output, reporting the exit status when the tracee exited, `"running"` when it
is running, and otherwise the selected goroutine's location (when one is
selected) followed by one line per thread parked at a breakpoint, with the
generic `"stopped"` exactly when neither of those produces a line. -/
theorem c3_state_summary_amended :
    ∀ s : DebuggerState,
      printState s ≠ [] ∧
      (s.exited = true → printState s = [exitedLine s.exitStatus]) ∧
      (s.exited = false → s.running = true → printState s = ["Process is running."]) ∧
      (s.exited = false → s.running = false → ∀ g, s.selectedGoroutine = some g →
        printState s = goroutineStateLine g :: s.threads.filterMap threadBreakpointLine) ∧
      (s.exited = false → s.running = false → s.selectedGoroutine = none →
        s.threads.filterMap threadBreakpointLine = [] → printState s = ["stopped"]) ∧
      (s.exited = false → s.running = false → s.selectedGoroutine = none →
        s.threads.filterMap threadBreakpointLine ≠ [] →
        printState s = s.threads.filterMap threadBreakpointLine) := by
  intro s
  refine ⟨?_, ?_, ?_, ?_, ?_, ?_⟩
  · unfold printState
    split
    · simp
    · split
      · simp
      · split
        · simp
        · rename_i h
          simpa [List.isEmpty_iff] using h
  · intro h; simp [printState, h, exitedLine]
  · intro h1 h2; simp [printState, h1, h2]
  · intro h1 h2 g hg
    simp [printState, stoppedLines, h1, h2, hg]
  · intro h1 h2 h3 h4
    simp [printState, stoppedLines, h1, h2, h3, h4]
  · intro h1 h2 h3 h4
    simp [printState, stoppedLines, h1, h2, h3, List.isEmpty_iff, h4]

open GoDebug DelveHelper in
/-- C3 witness: the amended theorem applied to concrete states. -/
theorem c3_state_summary_witness :
    printState sampleBareState ≠ [] ∧ printState sampleBareState = ["stopped"] :=
  ⟨(c3_state_summary_amended sampleBareState).1,
   (c3_state_summary_amended sampleBareState).2.2.2.2.1 rfl rfl rfl rfl⟩

/-- C10: In `Window` with the 16-element filtered dataset, `size=4`, `step=2`,
at the iteration where `start = 12` the computed `end` is `16` before the
clamp guard; the guard compares against `length-1` (`16 > 15` holds) so `end`
is `15` after it, making window index 6 have 3 elements (`[69, 36, 52]`)
instead of 4; with the guard threshold replaced by `length` (no `-1`), `end`
stays `16` at that iteration. -/
theorem c10_window_clamp_off_by_one :
    Pipeline.filtered16.length = 16 ∧
    Pipeline.filterReadings Pipeline.sensors 10 85 = Pipeline.filtered16 ∧
    Pipeline.windowEndPre 12 4 = 16 ∧
    (16 > 16 - 1) = True ∧
    Pipeline.windowEnd 16 12 4 = 15 ∧
    Pipeline.windowEndFixed 16 12 4 = 16 ∧
    (Pipeline.Window Pipeline.filtered16 4 2)[6]? = some [69, 36, 52] ∧
    ((Pipeline.Window Pipeline.filtered16 4 2)[6]?.map List.length) = some 3 := by
  decide

open GoDebug DelveHelper in
/-- C1: for every session command, when the initial state query errors with a
message containing the recognized exit pattern, the invocation prints that
message and succeeds; otherwise the error is propagated as a failure.  The
same reclassification applies to the error delivered by `continue` and by
every stepping command. -/
theorem c1_exit_error_reclassification :
    ∀ (eng : Engine) (cmd : Cmd) (m : String),
      (eng.getState = .error m →
        runSession eng cmd =
          (if strContains m exitErrPattern then .ok [m] else .error m)) ∧
      (∀ st, eng.getState = .ok st → eng.continueState.err = some m →
        runSession eng .continueCmd =
          (if strContains m exitErrPattern then .ok [m] else .error m)) ∧
      (∀ st k, eng.getState = .ok st → stepCall eng k = .error m →
        runSession eng (.stepKindCmd k) =
          (if strContains m exitErrPattern then .ok [m] else .error m)) := by
  intro eng cmd m
  refine ⟨?_, ?_, ?_⟩
  · intro h; simp [runSession, h]
  · intro st h hc
    simp [runSession, h, dispatch, cmdContinue, hc, isExitError]
  · intro st k h hs
    simp [runSession, h, dispatch, cmdStep, hs, isExitError]

open GoDebug DelveHelper in
/-- C1 witness: on a concrete engine whose state query fails with
`Process 123 has exited with status 0`, the invocation succeeds printing it. -/
theorem c1_exit_error_reclassification_witness :
    runSession sampleEngine .stateCmd = .ok [sampleExitMsg] := by
  have hpat : strContains sampleExitMsg exitErrPattern = true := by decide
  have h := (c1_exit_error_reclassification sampleEngine .stateCmd sampleExitMsg).1 rfl
  rw [hpat] at h
  simpa using h

open GoDebug DelveHelper in
/-- C2: `cmdBreak` splits the condition off the joined argument string before
resolving the location; when zero locations resolve it fails with an error
naming the spec; when the engine resolves locations and every creation
succeeds, exactly one breakpoint is created per resolved address (in order),
each request carrying the split-off condition and each reported with the
engine-assigned breakpoint's id and location. -/
theorem c2_break_per_resolved_address :
    ∀ (eng : Engine) (st : DebuggerState) (args : List String)
      (locs : List Location) (f : BreakpointRequest → Breakpoint),
      args ≠ [] →
      eng.findLocation (scopeFromState st)
        (splitCond (String.intercalate " " args)).1 = .ok locs →
      (∀ req, eng.createBreakpoint req = .ok (f req)) →
      (locs = [] →
        cmdBreak eng st args =
          .error ("no location found for " ++
            goQuote (splitCond (String.intercalate " " args)).1)) ∧
      (locs ≠ [] →
        cmdBreak eng st args =
          .ok (breakReqs (splitCond (String.intercalate " " args)).2 locs,
            (breakReqs (splitCond (String.intercalate " " args)).2 locs).map
              (fun req => breakMsg (f req)
                (splitCond (String.intercalate " " args)).2))) ∧
      ((breakReqs (splitCond (String.intercalate " " args)).2 locs).map
        BreakpointRequest.addr = locs.filterMap resolveAddr) ∧
      (∀ req ∈ breakReqs (splitCond (String.intercalate " " args)).2 locs,
        req.cond = (splitCond (String.intercalate " " args)).2) := by
  intro eng st args locs f hargs hfind hcreate
  refine ⟨?_, ?_, breakReqs_addrs _ _, breakReqs_cond _ _⟩
  · intro h; subst h
    simp [cmdBreak, List.isEmpty_iff, hargs, hfind]
  · intro h
    simp [cmdBreak, List.isEmpty_iff, hargs, hfind, h,
      breakLoop_ok eng _ f hcreate]

open GoDebug DelveHelper in
/-- C2 witness: a concrete `break main.go:25 if start == 12` invocation on an
engine resolving one location creates one breakpoint at that address with the
split-off condition and reports it. -/
theorem c2_break_per_resolved_address_witness :
    cmdBreak sampleLiveEngine sampleBareState
        ["main.go:25", "if", "start", "==", "12"] =
      .ok ([{ addr := 4096, file := "main.go", line := 25, cond := "start == 12" }],
        ["breakpoint 1 at main.go:25 (addr 0x1000) if start == 12"]) := by
  have h := (c2_break_per_resolved_address sampleLiveEngine sampleBareState
    ["main.go:25", "if", "start", "==", "12"] [sampleLoc] sampleBreakF
    (by decide) (by rfl) (fun req => rfl)).2.1 (by decide)
  rw [h]
  rfl

namespace GoDebug

/-- `listContainsSub` with an empty pattern is always true. -/
theorem listContainsSub_nil_pat : ∀ s : List Char, listContainsSub [] s = true
  | [] => rfl
  | _ :: _ => by simp [listContainsSub, List.isPrefixOf]

/-- Every list is a prefix of itself. -/
theorem isPrefixOf_self : ∀ pat : List Char, pat.isPrefixOf pat = true := by
  intro pat
  induction pat with
  | nil => rfl
  | cons p ps ih => simp [List.isPrefixOf, ih]

/-- A prefix of `a` is a prefix of `a ++ b`. -/
theorem isPrefixOf_extend {pat a : List Char} (b : List Char)
    (h : pat.isPrefixOf a = true) : pat.isPrefixOf (a ++ b) = true := by
  induction pat generalizing a with
  | nil => simp [List.isPrefixOf]
  | cons p ps ih =>
    cases a with
    | nil => simp [List.isPrefixOf] at h
    | cons q qs =>
      simp only [List.isPrefixOf, Bool.and_eq_true, beq_iff_eq] at h
      simp only [List.cons_append, List.isPrefixOf, Bool.and_eq_true, beq_iff_eq]
      exact ⟨h.1, ih h.2⟩

/-- A prefix occurrence is an occurrence. -/
theorem listContainsSub_of_isPrefixOf {pat s : List Char} (h : pat.isPrefixOf s = true) :
    listContainsSub pat s = true := by
  cases s with
  | nil =>
    cases pat with
    | nil => rfl
    | cons p ps => simp [List.isPrefixOf] at h
  | cons c rest => simp [listContainsSub, h]

/-- An occurrence in `a` survives appending on the right. -/
theorem listContainsSub_append_right {pat a : List Char} (b : List Char)
    (h : listContainsSub pat a = true) : listContainsSub pat (a ++ b) = true := by
  induction a with
  | nil =>
    have hp : pat = [] := by
      cases pat with
      | nil => rfl
      | cons p ps => simp [listContainsSub, List.isEmpty] at h
    subst hp
    exact listContainsSub_nil_pat b
  | cons c cs ih =>
    simp only [listContainsSub, Bool.or_eq_true] at h
    rcases h with h1 | h1
    · exact listContainsSub_of_isPrefixOf (isPrefixOf_extend b h1)
    · simp [listContainsSub, ih h1]

/-- An occurrence in `b` survives prepending on the left. -/
theorem listContainsSub_append_left {pat b : List Char} (a : List Char)
    (h : listContainsSub pat b = true) : listContainsSub pat (a ++ b) = true := by
  induction a with
  | nil => simpa using h
  | cons c cs ih => simp [listContainsSub, ih]

/-- `String` append acts as list append on the character data. -/
theorem strData_append (s t : String) : (s ++ t).data = s.data ++ t.data := rfl

/-- `strContains` survives appending on the left. -/
theorem strContains_append_left (s t pat : String) (h : strContains t pat = true) :
    strContains (s ++ t) pat = true := by
  unfold strContains at *
  rw [strData_append]
  exact listContainsSub_append_left _ h

/-- `strContains` survives appending on the right. -/
theorem strContains_append_right (s t pat : String) (h : strContains s pat = true) :
    strContains (s ++ t) pat = true := by
  unfold strContains at *
  rw [strData_append]
  exact listContainsSub_append_right _ h

/-- A string contains anything it ends with appended: `a ++ pat` contains `pat`. -/
theorem strContains_append_self (a pat : String) :
    strContains (a ++ pat) pat = true := by
  unfold strContains
  rw [strData_append]
  exact listContainsSub_append_left _
    (listContainsSub_of_isPrefixOf (isPrefixOf_self pat.data))

end GoDebug

namespace DelveHelper

/-- The "no session" error message contains the handle path it reports. -/
theorem noSessionErrMsg_names_path (p e : String) :
    GoDebug.strContains (noSessionErrMsg p e) p = true := by
  unfold noSessionErrMsg
  apply GoDebug.strContains_append_right
  exact GoDebug.strContains_append_self _ _

end DelveHelper

open GoDebug DelveHelper in
/-- C9: `getAddr` returns the `DLV_ADDR` override when set, otherwise the
persisted handle-file content with surrounding whitespace trimmed, and
otherwise fails with an error whose text names the exact handle-file path;
the handle path is `DBG_DIR/.dlv/addr` when the artifact-directory variable
is set, else `.dlv/addr` under the current directory. -/
theorem c9_addr_resolution :
    ∀ env : AddrEnv,
      (env.dlvAddr ≠ "" → getAddr env = .ok env.dlvAddr) ∧
      (env.dlvAddr = "" → ∀ b, env.readFile (getAddrFilePath env.dbgDir) = .ok b →
        getAddr env = .ok (strTrim b)) ∧
      (env.dlvAddr = "" → ∀ e, env.readFile (getAddrFilePath env.dbgDir) = .error e →
        getAddr env = .error (noSessionErrMsg (getAddrFilePath env.dbgDir) e) ∧
        strContains (noSessionErrMsg (getAddrFilePath env.dbgDir) e)
          (getAddrFilePath env.dbgDir) = true) ∧
      (env.dbgDir ≠ "" →
        getAddrFilePath env.dbgDir = pJoin (pJoin env.dbgDir ".dlv") "addr") ∧
      (env.dbgDir = "" → getAddrFilePath env.dbgDir = pJoin ".dlv" "addr") := by
  intro env
  refine ⟨?_, ?_, ?_, ?_, ?_⟩
  · intro h; simp [getAddr, h]
  · intro h b hb; simp [getAddr, h, hb]
  · intro h e he
    exact ⟨by simp [getAddr, h, he], noSessionErrMsg_names_path _ _⟩
  · intro h; simp [getAddrFilePath, getDlvDir, h]
  · intro h; simp [getAddrFilePath, getDlvDir, h]

open GoDebug DelveHelper in
/-- C9 witness: with no override and a missing handle file under a set
`DBG_DIR`, `getAddr` fails with the message naming `.debug/.dlv/addr`; with a
stored address it returns it trimmed. -/
theorem c9_addr_resolution_witness :
    getAddr missingHandleEnv =
      .error (noSessionErrMsg ".debug/.dlv/addr" "open: no such file") ∧
    strContains (noSessionErrMsg ".debug/.dlv/addr" "open: no such file")
      ".debug/.dlv/addr" = true ∧
    getAddr storedHandleEnv = .ok "127.0.0.1:44573" := by
  refine ⟨?_, ?_, ?_⟩
  · exact ((c9_addr_resolution missingHandleEnv).2.2.1 rfl "open: no such file" rfl).1
  · exact ((c9_addr_resolution missingHandleEnv).2.2.1 rfl "open: no such file" rfl).2
  · have h := (c9_addr_resolution storedHandleEnv).2.1 rfl "127.0.0.1:44573\n" rfl
    rw [h]
    rfl

open GoDebug DelveHelper in
/-- C8: with templates in place and `pdflatex` found, `TexToPDF` invokes the
external compiler exactly twice regardless of each run's outcome, then
succeeds exactly when the output artifact exists, otherwise failing with an
error naming the expected output path. -/
theorem c8_pdf_compile_twice_then_verify :
    ∀ (w : PdfWorld) (dir : String),
      w.templatesOk = true → w.pdflatexFound = true →
      ((texToPDF w dir).1.count PdfEffect.runCompiler = 2 ∧
       (w.artifactExists = true → (texToPDF w dir).2 = .ok ()) ∧
       (w.artifactExists = false →
         (texToPDF w dir).2 =
           .error ("pdflatex did not produce " ++ pJoin dir "debug_report.pdf") ∧
         strContains ("pdflatex did not produce " ++ pJoin dir "debug_report.pdf")
           (pJoin dir "debug_report.pdf") = true)) := by
  intro w dir ht hp
  refine ⟨?_, ?_, ?_⟩
  · simp [texToPDF, ht, hp]
    cases w.artifactExists <;> rfl
  · intro ha; simp [texToPDF, ht, hp, ha]
  · intro ha
    exact ⟨by simp [texToPDF, ht, hp, ha], strContains_append_self _ _⟩

open GoDebug DelveHelper in
/-- C8 witness: the theorem at a concrete world where the artifact is
missing. -/
theorem c8_pdf_compile_twice_then_verify_witness :
    (texToPDF { templatesOk := true, pdflatexFound := true, artifactExists := false }
      ".debug").1.count PdfEffect.runCompiler = 2 ∧
    (texToPDF { templatesOk := true, pdflatexFound := true, artifactExists := false }
      ".debug").2 =
      .error ("pdflatex did not produce " ++ pJoin ".debug" "debug_report.pdf") :=
  ⟨(c8_pdf_compile_twice_then_verify _ ".debug" rfl rfl).1,
   ((c8_pdf_compile_twice_then_verify _ ".debug" rfl rfl).2.2 rfl).1⟩

open GoDebug DelveHelper in
/-- C4: evaluation of the handle writes at the failing input (invoker at
`/proj`, target submodule `/proj/sub` with its own `go.mod`, `DBG_DIR`
unset): `cmdStart` writes the addr/pid pair twice to the invoker's
`/proj/.dlv` and never to the target's own `/proj/sub/.dlv`, while the
sibling `delve.Start` writes the target's pair first and then the
invoker's. -/
theorem c4_submodule_handle_writes :
    cmdStartHandleWrites subModuleCfg =
      ["/proj/.dlv/addr", "/proj/.dlv/pid", "/proj/.dlv/addr", "/proj/.dlv/pid"] ∧
    "/proj/sub/.dlv/addr" ∉ cmdStartHandleWrites subModuleCfg ∧
    startHandleWritesLegacy subModuleCfg =
      ["/proj/sub/.dlv/addr", "/proj/sub/.dlv/pid", "/proj/.dlv/addr", "/proj/.dlv/pid"] := by
  decide

namespace GoDebug

/-- Boolean absorption used to relate the loop's `inTable` state to "the
previous line is a table row". -/
theorem bool_or_and_absorb : ∀ a b : Bool, (a || (a && b)) = a := by decide

/-- `lexLe` is total. -/
theorem lexLe_total : ∀ a b : List Char, lexLe a b = true ∨ lexLe b a = true := by
  intro a
  induction a with
  | nil => intro b; left; rfl
  | cons x xs ih =>
    intro b
    cases b with
    | nil => right; rfl
    | cons y ys =>
      by_cases hxy : x = y
      · subst hxy
        rcases ih ys with h | h
        · left; simpa [lexLe] using h
        · right; simpa [lexLe] using h
      · rcases lt_trichotomy x y with h | h | h
        · left; simp [lexLe, hxy, h]
        · exact absurd h hxy
        · right
          have hyx : y ≠ x := fun hh => hxy hh.symm
          simp [lexLe, hyx, h]

/-- `lexLe` is transitive. -/
theorem lexLe_trans :
    ∀ a b c : List Char, lexLe a b = true → lexLe b c = true → lexLe a c = true := by
  intro a
  induction a with
  | nil => intro b c _ _; rfl
  | cons x xs ih =>
    intro b c hab hbc
    cases b with
    | nil => simp [lexLe] at hab
    | cons y ys =>
      cases c with
      | nil => simp [lexLe] at hbc
      | cons z zs =>
        by_cases hxy : x = y
        · subst hxy
          by_cases hxz : x = z
          · subst hxz
            simp only [lexLe, if_pos rfl] at hab hbc ⊢
            exact ih ys zs hab hbc
          · simp [lexLe, hxz] at hbc ⊢
            exact hbc
        · simp [lexLe, hxy] at hab
          by_cases hyz : y = z
          · subst hyz
            simp [lexLe, hxy]
            exact hab
          · simp [lexLe, hyz] at hbc
            have hxz : x < z := lt_trans hab hbc
            simp [lexLe, ne_of_lt hxz]
            exact hxz

end GoDebug

namespace DelveHelper

open GoDebug

/-- The repair loop started with the `inTable` state matching an optional
previous line computes exactly the declarative per-position insertion. -/
theorem fixTablesGo_eq_spec :
    ∀ (lines : List String) (p : Option String),
      fixTablesGo lines (prevInTable p) = fixTablesSpec p lines := by
  intro lines
  induction lines with
  | nil => intro p; cases p <;> rfl
  | cons line rest ih =>
    intro p
    have hrec : fixTablesGo rest (prevInTable (some line)) = fixTablesSpec (some line) rest :=
      ih (some line)
    simp only [fixTablesGo, fixTablesSpec, prevInTable] at hrec ⊢
    rw [hrec]
    congr 2
    cases p with
    | none =>
      cases rest with
      | nil => simp [needsSyntheticSep, prevInTable]
      | cons next rest2 =>
        simp only [needsSyntheticSep, prevInTable, List.head?, Bool.not_false,
          Bool.and_true]
        by_cases h1 : isTableRowLine line = true <;>
          by_cases h2 : (strStartsWith next "|" && !(strContains next "---")) = true <;>
            simp [h1, h2]
    | some pl =>
      cases rest with
      | nil =>
        simp [needsSyntheticSep, prevInTable]
      | cons next rest2 =>
        simp only [needsSyntheticSep, prevInTable, isSeparatorLine, List.head?,
          GoDebug.bool_or_and_absorb]
        by_cases h1 : isTableRowLine line = true <;>
          by_cases h2 : isTableRowLine pl = true <;>
            by_cases h3 : (strStartsWith next "|" && !(strContains next "---")) = true <;>
              simp [h1, h2, h3]

end DelveHelper

open GoDebug DelveHelper in
/-- C7: the structural repair pass inserts exactly one synthesized separator
row (one ` --- |` slot per column of the first row) after each table row that
starts a table (the previous line, if any, is not a table row) and is
immediately followed by a pipe-prefixed non-separator line; all other lines —
rows inside an already-started table body, and tables already followed by a
separator row — are emitted unchanged. -/
theorem c7_table_separator_synthesis :
    (∀ lines : List String, fixTablesGo lines false = fixTablesSpec none lines) ∧
    (∀ md : String,
      fixMarkdownTables md =
        String.intercalate "\n" (fixTablesSpec none (strSplitOn md "\n"))) := by
  constructor
  · intro lines
    exact fixTablesGo_eq_spec lines none
  · intro md
    unfold fixMarkdownTables
    have h := fixTablesGo_eq_spec (strSplitOn md "\n") none
    simp only [prevInTable] at h
    rw [h]

open GoDebug DelveHelper in
/-- C6: the assembler selects exactly the non-directory `.md` entries
(case-insensitive suffix) that are not dot-files, not `frag_` template
fragments and not the named checklist file; when nothing survives it fails
with an error naming the directory; otherwise it concatenates the selected
fragments' contents in sorted name order with a blank-line separator. -/
theorem c6_fragment_selection_and_assembly :
    ∀ (dir : String) (entries : List DirEntry) (rf : String → String),
      (selectMdFiles entries = [] →
        mdToTexBody dir entries rf = .error ("no .md files found in " ++ dir)) ∧
      (selectMdFiles entries ≠ [] →
        (sortStrings (selectMdFiles entries)).Perm (selectMdFiles entries) ∧
        (sortStrings (selectMdFiles entries)).Sorted goLe ∧
        mdToTexBody dir entries rf =
          .ok (String.intercalate "\n\n"
            ((sortStrings (selectMdFiles entries)).map
              (fun name => rf (pJoin dir name))))) ∧
      (∀ name, name ∈ selectMdFiles entries ↔
        ∃ e ∈ entries, e.name = name ∧ e.isDir = false ∧
          strStartsWith e.name "." = false ∧
          strEndsWith (strToLower e.name) ".md" = true ∧
          strStartsWith e.name "frag_" = false ∧ e.name ≠ "99_checklist.md") := by
  intro dir entries rf
  haveI htot : IsTotal String goLe := ⟨fun a b => lexLe_total a.data b.data⟩
  haveI htr : IsTrans String goLe := ⟨fun a b c => lexLe_trans a.data b.data c.data⟩
  refine ⟨?_, ?_, ?_⟩
  · intro h
    simp [mdToTexBody, h]
  · intro h
    refine ⟨List.perm_insertionSort goLe _, List.sorted_insertionSort goLe _, ?_⟩
    simp [mdToTexBody, List.isEmpty_iff, h, sortStrings]
  · intro name
    constructor
    · intro h
      unfold selectMdFiles at h
      rw [List.mem_filterMap] at h
      obtain ⟨e, he, hf⟩ := h
      refine ⟨e, he, ?_⟩
      by_cases hd : e.isDir = true <;>
        by_cases hdot : strStartsWith e.name "." = true <;>
          by_cases hmd : strEndsWith (strToLower e.name) ".md" = true <;>
            by_cases hfr : strStartsWith e.name "frag_" = true <;>
              by_cases hchk : e.name = "99_checklist.md" <;>
                simp [hd, hdot, hmd, hfr, hchk] at hf
      exact ⟨hf, by simpa using hd, by simpa using hdot, hmd,
        by simpa using hfr, hchk⟩
    · rintro ⟨e, he, hname, h1, h2, h3, h4, h5⟩
      subst hname
      unfold selectMdFiles
      rw [List.mem_filterMap]
      exact ⟨e, he, by simp [h1, h2, h3, h4, h5]⟩

open GoDebug DelveHelper in
/-- C6 witness: on a concrete listing the assembler keeps exactly the two
report fragments, sorts them by name, and joins their contents with a blank
line. -/
theorem c6_fragment_selection_witness :
    mdToTexBody ".debug" sampleEntries (fun p => p) =
      .ok ".debug/00_report.md\n\n.debug/20_evidence.md" := by
  have h := ((c6_fragment_selection_and_assembly ".debug" sampleEntries
    (fun p => p)).2.1 (by decide)).2.2
  rw [h]
  rfl

namespace GoDebug

/-- String append is associative. -/
theorem strApp_assoc (a b c : String) : (a ++ b) ++ c = a ++ (b ++ c) := by
  obtain ⟨a⟩ := a
  obtain ⟨b⟩ := b
  obtain ⟨c⟩ := c
  exact congrArg String.mk (List.append_assoc a b c)

/-- The empty string is a left identity for append. -/
theorem strEmpty_append (s : String) : "" ++ s = s := by
  obtain ⟨d⟩ := s
  rfl

/-- The empty string is a right identity for append. -/
theorem strAppend_empty (s : String) : s ++ "" = s := by
  obtain ⟨d⟩ := s
  exact congrArg String.mk (List.append_nil d)

/-- A leading newline opens a fresh (empty) line. -/
theorem splitNL_cons_newline (b : List Char) : splitNL ('\n' :: b) = [] :: splitNL b := by
  simp [splitNL]

/-- Splitting after a newline-free prefix: the prefix becomes one whole line. -/
theorem splitNL_append (a b : List Char) (h : ∀ c ∈ a, c ≠ '\n') :
    splitNL (a ++ '\n' :: b) = a :: splitNL b := by
  induction a with
  | nil => simp [splitNL]
  | cons c cs ih =>
    have hc : c ≠ '\n' := h c (List.mem_cons_self c cs)
    have hrest := ih (fun x hx => h x (List.mem_cons_of_mem c hx))
    simp only [List.cons_append, splitNL, if_neg hc, List.append_eq, hrest]

end GoDebug

namespace DelveHelper

open GoDebug

/-- Once the fragment already contains the section title, every further
trace-row invocation appends exactly its rendered row. -/
theorem traceRowsAppend_contains :
    ∀ (rows : List TraceRow) (content : String),
      strContains content traceHeaderMark = true →
      traceRowsAppend content rows =
        content ++ concatStrs (rows.map renderTraceRow) := by
  intro rows
  induction rows with
  | nil =>
    intro content _
    exact (strAppend_empty content).symm
  | cons r rs ih =>
    intro content h
    have hg : traceRowAppend content r = content ++ renderTraceRow r := by
      simp [traceRowAppend, fileContains, h]
    have h2 := strContains_append_right content (renderTraceRow r) _ h
    calc traceRowsAppend content (r :: rs)
        = traceRowsAppend (traceRowAppend content r) rs := rfl
      _ = traceRowsAppend (content ++ renderTraceRow r) rs := by rw [hg]
      _ = (content ++ renderTraceRow r) ++ concatStrs (rs.map renderTraceRow) :=
          ih _ h2
      _ = content ++ (renderTraceRow r ++ concatStrs (rs.map renderTraceRow)) :=
          strApp_assoc ..
      _ = content ++ concatStrs ((r :: rs).map renderTraceRow) := rfl

/-- Every rendered trace-row body starts with a pipe character. -/
theorem renderBody_data (r : TraceRow) :
    ∃ l, (renderTraceRowBody r).data = '|' :: l := ⟨_, rfl⟩

/-- A rendered trace-row body is never the section-title line. -/
theorem renderBody_ne_mark (r : TraceRow) :
    ((renderTraceRowBody r).data = traceHeaderMark.data) → False := by
  intro h
  obtain ⟨l, hl⟩ := renderBody_data r
  rw [hl] at h
  have hm : traceHeaderMark.data = '#' :: "# Debugging Trace".data := rfl
  rw [hm] at h
  injection h with h1 _
  exact absurd h1 (by decide)

/-- The line structure of the concatenated rendered rows: one line per row
(in order) plus the final empty line after the trailing newline. -/
theorem splitNL_concatRows :
    ∀ rows : List TraceRow,
      (∀ r ∈ rows, ∀ c ∈ (renderTraceRowBody r).data, c ≠ '\n') →
      splitNL (concatStrs (rows.map renderTraceRow)).data =
        rows.map (fun r => (renderTraceRowBody r).data) ++ [[]] := by
  intro rows
  induction rows with
  | nil => intro _; rfl
  | cons r rs ih =>
    intro h
    have hr := h r (List.mem_cons_self r rs)
    have hrs := ih (fun x hx c hc => h x (List.mem_cons_of_mem r hx) c hc)
    show splitNL ((renderTraceRow r ++ concatStrs (rs.map renderTraceRow)).data) = _
    rw [strData_append]
    show splitNL (((renderTraceRowBody r).data ++ ['\n']) ++
      (concatStrs (rs.map renderTraceRow)).data) = _
    rw [List.append_assoc, List.singleton_append,
      splitNL_append _ _ hr, hrs]
    rfl

end DelveHelper

open GoDebug DelveHelper in
/-- C5: each trace-row invocation only reads existing fragment content
through the header-presence guard and otherwise appends; starting from an
empty fragment, N ≥ 1 invocations with single-line rows produce the header
block once followed by the N data rows in invocation order — line-wise: the
section title, a blank line, the column header, the separator, then one line
per row, with the section-title line occurring exactly once. -/
theorem c5_trace_rows_single_header :
    ∀ rows : List TraceRow, rows ≠ [] →
      (∀ r ∈ rows, ∀ c ∈ (renderTraceRowBody r).data, c ≠ '\n') →
      (∀ (content : String) (r : TraceRow),
        traceRowAppend content r =
          content ++ (if fileContains content traceHeaderMark then renderTraceRow r
            else traceTableHeader ++ renderTraceRow r)) ∧
      traceRowsAppend "" rows =
        traceTableHeader ++ concatStrs (rows.map renderTraceRow) ∧
      splitNL (traceRowsAppend "" rows).data =
        [traceHeaderMark.data, [], traceColHeader.data, traceColSep.data] ++
          rows.map (fun r => (renderTraceRowBody r).data) ++ [[]] ∧
      (splitNL (traceRowsAppend "" rows).data).count traceHeaderMark.data = 1 := by
  intro rows hne hnl
  have hguard : ∀ (content : String) (r : TraceRow),
      traceRowAppend content r =
        content ++ (if fileContains content traceHeaderMark then renderTraceRow r
          else traceTableHeader ++ renderTraceRow r) := by
    intro content r
    unfold traceRowAppend
    by_cases h : fileContains content traceHeaderMark = true
    · simp [h]
    · simp [h]
  cases rows with
  | nil => exact absurd rfl hne
  | cons r0 rs =>
    have hempty : fileContains "" traceHeaderMark = false := by decide
    have h0 : traceRowAppend "" r0 = traceTableHeader ++ renderTraceRow r0 := by
      unfold traceRowAppend
      rw [hempty]
      simp [strEmpty_append]
    have hcontains :
        strContains (traceTableHeader ++ renderTraceRow r0) traceHeaderMark = true :=
      strContains_append_right _ _ _ (by decide)
    have hmain : traceRowsAppend "" (r0 :: rs) =
        traceTableHeader ++ concatStrs ((r0 :: rs).map renderTraceRow) := by
      calc traceRowsAppend "" (r0 :: rs)
          = traceRowsAppend (traceRowAppend "" r0) rs := rfl
        _ = traceRowsAppend (traceTableHeader ++ renderTraceRow r0) rs := by rw [h0]
        _ = (traceTableHeader ++ renderTraceRow r0) ++
              concatStrs (rs.map renderTraceRow) :=
            traceRowsAppend_contains rs _ hcontains
        _ = traceTableHeader ++
              (renderTraceRow r0 ++ concatStrs (rs.map renderTraceRow)) :=
            strApp_assoc ..
        _ = traceTableHeader ++ concatStrs ((r0 :: rs).map renderTraceRow) := rfl
    have hlines : splitNL (traceRowsAppend "" (r0 :: rs)).data =
        [traceHeaderMark.data, [], traceColHeader.data, traceColSep.data] ++
          (r0 :: rs).map (fun r => (renderTraceRowBody r).data) ++ [[]] := by
      rw [hmain, strData_append]
      have hhdr : traceTableHeader.data =
          traceHeaderMark.data ++ '\n' ::
            ('\n' :: (traceColHeader.data ++ '\n' ::
              (traceColSep.data ++ ['\n']))) := by decide
      rw [hhdr]
      simp only [List.append_assoc, List.cons_append, List.singleton_append,
        List.nil_append]
      rw [splitNL_append traceHeaderMark.data _ (by decide)]
      rw [splitNL_cons_newline]
      rw [splitNL_append traceColHeader.data _ (by decide)]
      rw [splitNL_append traceColSep.data _ (by decide)]
      rw [splitNL_concatRows (r0 :: rs) hnl]
    have hcount :
        (splitNL (traceRowsAppend "" (r0 :: rs)).data).count traceHeaderMark.data = 1 := by
      rw [hlines]
      rw [List.count_append, List.count_append]
      have h1 : ([traceHeaderMark.data, [], traceColHeader.data,
          traceColSep.data]).count traceHeaderMark.data = 1 := by decide
      have h2 : ((r0 :: rs).map
          (fun r => (renderTraceRowBody r).data)).count traceHeaderMark.data = 0 := by
        rw [List.count_eq_zero]
        intro hmem
        rw [List.mem_map] at hmem
        obtain ⟨r, _, hr⟩ := hmem
        exact renderBody_ne_mark r hr
      have h3 : ([([] : List Char)] : List (List Char)).count traceHeaderMark.data = 0 := by
        decide
      rw [h1, h2, h3]
    exact ⟨hguard, hmain, hlines, hcount⟩

open GoDebug DelveHelper in
/-- C5 witness: two concrete trace-row invocations on an empty fragment. -/
theorem c5_trace_rows_single_header_witness :
    traceRowsAppend "" sampleTraceRows =
      traceTableHeader ++ concatStrs (sampleTraceRows.map renderTraceRow) ∧
    (splitNL (traceRowsAppend "" sampleTraceRows).data).count traceHeaderMark.data = 1 :=
  ⟨(c5_trace_rows_single_header sampleTraceRows (by decide) (by decide)).2.1,
   (c5_trace_rows_single_header sampleTraceRows (by decide) (by decide)).2.2.2⟩
